import Mathlib

/-!
Verification of the GEM strategy assistant against its specification.

This file shallowly embeds the Python sources of the repository
(domain model `models.py`, strategy `strategy.py`, the composite
market-data and search providers, the persistence repositories, the
migration manager and the analyze-and-recommend use case) as Lean
definitions, and proves or refutes the frozen claims about them.

Modelling conventions:
* Python `float` prices and momentum fractions are modelled as `ℚ`.
* Python `datetime` values are modelled as a calendar date plus a
  time-of-day number; `isoformat`/`fromisoformat` round-trips are
  modelled as the identity on these values (which is exact for naive
  datetimes).
* Fallible Python code (raising exceptions) is modelled with `Except`.
* Python attribute lookups on names a class does not define are
  modelled as `Except.error (.attributeError _)`, mirroring Python's
  `AttributeError`.
-/

/-- The four tracked ETFs (`models.py`, `class ETF(Enum)`). -/
inductive ETF where
  | EIMI
  | CNDX
  | CBU0
  | IB01
  deriving DecidableEq, Repr, Fintype

/-- Iteration order of the `ETF` enum (`for etf in ETF`). -/
def etfCatalog : List ETF := [.EIMI, .CNDX, .CBU0, .IB01]

/-- Embeds `ETF.name` of each enum member. -/
def ETF.pyName : ETF → String
  | .EIMI => "EIMI"
  | .CNDX => "CNDX"
  | .CBU0 => "CBU0"
  | .IB01 => "IB01"

/-- Errors raised by the embedded Python code.  Each constructor
records the Python exception kind (and, for `AttributeError` /
`KeyError`, the offending name). -/
inductive PyErr where
  /-- Embeds `AttributeError`, carrying the looked-up attribute name. -/
  | attributeError (attr : String)
  /-- Embeds `KeyError`, carrying the looked-up key. -/
  | keyError (key : String)
  /-- Embeds `IndexError` from subscripting an empty sequence. -/
  | indexError
  /-- Embeds `sqlite3.OperationalError`, carrying a short description. -/
  | operationalError (msg : String)
  /-- Embeds `ValueError("Missing data for ETFs: ...")`, carrying the missing
  catalog members it names. -/
  | missingData (missing : List ETF)
  /-- Embeds `ValueError("Duplicate ETF entries in price_data")`. -/
  | duplicateEntries
  /-- Embeds `ValueError("Inconsistent analysis periods: ...")`, carrying the
  start-date and end-date day spans it names. -/
  | inconsistentPeriods (startDiff endDiff : Int)
  /-- Embeds `ValueError("Rankings cannot be empty")`. -/
  | emptyRankings
  /-- Embeds `ValueError("Expected 4 ETFs in ranking, ...")`. -/
  | badRankingLength
  deriving DecidableEq, Repr

/-- A calendar date, as in Python `datetime.date`: year, month, day.
Components are integers; validity (1 ≤ m ≤ 12, 1 ≤ d ≤ days in month)
is imposed by hypotheses where the claims need it. -/
structure PDate where
  y : Int
  m : Int
  d : Int
  deriving DecidableEq, Repr

/-- A naive Python `datetime`: a date plus a time-of-day (seconds
within the day; only its ordering matters to the claims). -/
structure PyDateTime where
  date : PDate
  tod : Int
  deriving DecidableEq, Repr

/-- Gregorian leap year test (as used by Python's `calendar`). -/
def isLeap (y : Int) : Bool :=
  (Int.emod y 4 = 0 && Int.emod y 100 ≠ 0) || Int.emod y 400 = 0

/-- Number of days in month `m` of year `y` (Python `calendar.monthrange`). -/
def daysInMonth (y m : Int) : Int :=
  if m = 2 then (if isLeap y then 29 else 28)
  else if m = 4 ∨ m = 6 ∨ m = 9 ∨ m = 11 then 30
  else 31

/-- A date is a real calendar date. -/
def PDate.Valid (dt : PDate) : Prop :=
  1 ≤ dt.m ∧ dt.m ≤ 12 ∧ 1 ≤ dt.d ∧ dt.d ≤ daysInMonth dt.y dt.m

instance (dt : PDate) : Decidable dt.Valid := by
  unfold PDate.Valid; infer_instance

/-- Strict chronological order on dates, componentwise lexicographic.
For dates this coincides with the order of their zero-padded
`YYYY-MM-DD` renderings. -/
def PDate.lt (a b : PDate) : Prop :=
  a.y < b.y ∨ (a.y = b.y ∧ (a.m < b.m ∨ (a.m = b.m ∧ a.d < b.d)))

instance (a b : PDate) : Decidable (PDate.lt a b) := by
  unfold PDate.lt; infer_instance

/-- Strict chronological order on datetimes (date, then time of day). -/
def PyDateTime.lt (a b : PyDateTime) : Prop :=
  PDate.lt a.date b.date ∨ (a.date = b.date ∧ a.tod < b.tod)

instance (a b : PyDateTime) : Decidable (PyDateTime.lt a b) := by
  unfold PyDateTime.lt; infer_instance

/-- Day count since an epoch (civil-from-days); only date differences
computed from it matter to the claims (`(max - min).days` in
`calculate_ranking`). -/
def toDayNumber (dt : PDate) : Int :=
  let y := if dt.m ≤ 2 then dt.y - 1 else dt.y
  let era := Int.ediv (if 0 ≤ y then y else y - 399) 400
  let yoe := y - era * 400
  let mp := Int.emod (dt.m + 9) 12
  let doy := Int.ediv (153 * mp + 2) 5 + dt.d - 1
  let doe := yoe * 365 + Int.ediv yoe 4 - Int.ediv yoe 100 + doy
  era * 146097 + doe - 719468

/-- The day after `dt` (Python `date + timedelta(days=1)`). -/
def PDate.nextDay (dt : PDate) : PDate :=
  if dt.d + 1 ≤ daysInMonth dt.y dt.m then ⟨dt.y, dt.m, dt.d + 1⟩
  else if dt.m + 1 ≤ 12 then ⟨dt.y, dt.m + 1, 1⟩
  else ⟨dt.y + 1, 1, 1⟩

/-- The day before `dt` (Python `date - timedelta(days=1)`). -/
def PDate.prevDay (dt : PDate) : PDate :=
  if 1 < dt.d then ⟨dt.y, dt.m, dt.d - 1⟩
  else if 1 < dt.m then ⟨dt.y, dt.m - 1, daysInMonth dt.y (dt.m - 1)⟩
  else ⟨dt.y - 1, 12, 31⟩

/-- Step the (year, month) pair back by one month. -/
def monthBack1 (ym : Int × Int) : Int × Int :=
  if ym.2 = 1 then (ym.1 - 1, 12) else (ym.1, ym.2 - 1)

/-- Step the (year, month) pair back by `k` months. -/
def monthsBack (k : Nat) (ym : Int × Int) : Int × Int :=
  match k with
  | 0 => ym
  | k + 1 => monthsBack k (monthBack1 ym)

/-- Step the (year, month) pair forward by one month. -/
def monthFwd1 (ym : Int × Int) : Int × Int :=
  if ym.2 = 12 then (ym.1 + 1, 1) else (ym.1, ym.2 + 1)

/-- Embeds `dt - relativedelta(months=k)` (dateutil): move the month back by
`k`, clamping the day to the length of the landing month. -/
def subMonthsRel (k : Nat) (dt : PDate) : PDate :=
  let ym := monthsBack k (dt.y, dt.m)
  ⟨ym.1, ym.2, min dt.d (daysInMonth ym.1 ym.2)⟩

/-- Embeds `dt + relativedelta(months=1)` (dateutil), with the same day clamp. -/
def addOneMonthRel (dt : PDate) : PDate :=
  let ym := monthFwd1 (dt.y, dt.m)
  ⟨ym.1, ym.2, min dt.d (daysInMonth ym.1 ym.2)⟩

/-- Embeds `ETF[name]` lookup by member name (raises `KeyError` when absent),
as used by the signal repository when re-resolving stored names. -/
def etfOfName (s : String) : Except PyErr ETF :=
  if s = "EIMI" then .ok .EIMI
  else if s = "CNDX" then .ok .CNDX
  else if s = "CBU0" then .ok .CBU0
  else if s = "IB01" then .ok .IB01
  else .error (.keyError s)

/-- Embeds `PriceData` (`models.py`): one ETF's price at period start and end.
Prices are modelled as rationals. -/
structure PriceData where
  etf : ETF
  startDate : PyDateTime
  endDate : PyDateTime
  startPrice : ℚ
  endPrice : ℚ
  deriving DecidableEq, Repr

/-- Distinct `ValueError`s raised by `PriceData.__post_init__`. -/
inductive PriceDataErr where
  | startPriceNotPositive
  | endPriceNotPositive
  | startNotBeforeEnd
  deriving DecidableEq, Repr

/-- Constructing a `PriceData` runs `__post_init__`: the start price,
then the end price, must be strictly positive, and the start date must
be strictly before the end date; the first violated check raises. -/
def mkPriceData (etf : ETF) (sd ed : PyDateTime) (sp ep : ℚ) :
    Except PriceDataErr PriceData :=
  if sp ≤ 0 then .error .startPriceNotPositive
  else if ep ≤ 0 then .error .endPriceNotPositive
  else if ¬ PyDateTime.lt sd ed then .error .startNotBeforeEnd
  else .ok ⟨etf, sd, ed, sp, ep⟩

/-- Embeds `PriceData.momentum`: `(end_price - start_price) / start_price`. -/
def momentum (p : PriceData) : ℚ :=
  (p.endPrice - p.startPrice) / p.startPrice

/-- Round a rational to the nearest integer, ties to even (the
rounding used by Python's fixed-precision float formatting). -/
def bankersRound (q : ℚ) : Int :=
  let f := ⌊q⌋
  let frac := q - (f : ℚ)
  if frac < 1 / 2 then f
  else if 1 / 2 < frac then f + 1
  else if Int.emod f 2 = 0 then f else f + 1

/-- Zero-padded two-digit rendering of `n < 100`. -/
def twoDigits (n : Nat) : String :=
  if n < 10 then "0" ++ Nat.repr n else Nat.repr n

/-- Embeds `PriceData.momentum_pct`: the momentum rendered as a signed
percentage with two decimals (Python `f"{m * 100:+.2f}%"`). -/
def momentumPct (p : PriceData) : String :=
  let q := momentum p
  let sign := if q < 0 then "-" else "+"
  let cents := (bankersRound (|q| * 10000)).toNat
  sign ++ Nat.repr (cents / 100) ++ "." ++ twoDigits (cents % 100) ++ "%"

/-- Embeds `MomentumRanking` (`models.py`): ordered (ETF, momentum) pairs plus
the period bounds and calculation timestamp. -/
structure MomentumRanking where
  rankings : List (ETF × ℚ)
  periodStart : PyDateTime
  periodEnd : PyDateTime
  calculatedAt : PyDateTime
  deriving DecidableEq, Repr

/-- Constructing a `MomentumRanking` runs `__post_init__`: the pair
sequence must be non-empty and contain exactly `len(ETF) = 4` entries. -/
def mkMomentumRanking (rs : List (ETF × ℚ)) (ps pe ca : PyDateTime) :
    Except PyErr MomentumRanking :=
  if rs.length = 0 then .error .emptyRankings
  else if rs.length ≠ 4 then .error .badRankingLength
  else .ok ⟨rs, ps, pe, ca⟩

/-- Embeds `Signal` (`models.py`).  The dataclass defines exactly the fields
below plus the derived properties `action` and `action_emoji`; it has
no `date` and no `rationale` attribute. -/
structure Signal where
  recommendedEtf : ETF
  ranking : MomentumRanking
  previousEtf : Option ETF
  requiresRebalance : Bool
  createdAt : PyDateTime
  report : Option String
  stooqLink : Option String
  deriving DecidableEq, Repr

/-- Embeds `Signal.action`: `HOLD`/`SWITCH`/`BUY` derived string. -/
def Signal.action (s : Signal) : String :=
  if s.requiresRebalance = false then "HOLD " ++ s.recommendedEtf.pyName
  else
    match s.previousEtf with
    | some p => "SWITCH " ++ p.pyName ++ " -> " ++ s.recommendedEtf.pyName
    | none => "BUY " ++ s.recommendedEtf.pyName

/-- Embeds `MomentumStrategy.generate_signal`: the winner is `rankings[0][0]`
(an `IndexError` on an empty tuple); `requires_rebalance` is
`previous_etf is None or winner != previous_etf`. -/
def generate_signal (r : MomentumRanking) (prev : Option ETF)
    (now : PyDateTime) : Except PyErr Signal :=
  match r.rankings with
  | [] => .error .indexError
  | (w, _) :: _ =>
    .ok { recommendedEtf := w
          ranking := r
          previousEtf := prev
          requiresRebalance :=
            match prev with
            | none => true
            | some p => decide (w ≠ p)
          createdAt := now
          report := none
          stooqLink := none }

/-- Insert one pair into a descending-sorted list, after all entries of
greater-or-equal momentum (the insertion step of a stable descending
sort, matching Python's stable `list.sort(reverse=True)`). -/
def insDesc (x : ETF × ℚ) : List (ETF × ℚ) → List (ETF × ℚ)
  | [] => [x]
  | y :: ys => if y.2 < x.2 then x :: y :: ys else y :: insDesc x ys

/-- Stable descending sort by momentum
(`momentum_list.sort(key=lambda x: x[1], reverse=True)`). -/
def sortDesc (l : List (ETF × ℚ)) : List (ETF × ℚ) :=
  l.foldl (fun acc x => insDesc x acc) []

/-- Embeds `max` of a Python list (defined on non-empty lists; the strategy
only applies it to the four observation dates). -/
def listMax (l : List Int) : Int :=
  match l with
  | [] => 0
  | x :: xs => xs.foldl max x

/-- Embeds `min` of a Python list. -/
def listMin (l : List Int) : Int :=
  match l with
  | [] => 0
  | x :: xs => xs.foldl min x

/-- The start-date day span of a list of observations:
`(max(start_dates) - min(start_dates)).days`. -/
def startSpan (pd : List PriceData) : Int :=
  listMax (pd.map fun p => toDayNumber p.startDate.date) -
    listMin (pd.map fun p => toDayNumber p.startDate.date)

/-- The end-date day span of a list of observations. -/
def endSpan (pd : List PriceData) : Int :=
  listMax (pd.map fun p => toDayNumber p.endDate.date) -
    listMin (pd.map fun p => toDayNumber p.endDate.date)

/-- Embeds `MomentumStrategy.calculate_ranking` (`strategy.py`): reject a list
whose length differs from `len(ETF)` (naming the catalog members with
no observation), then duplicate ETF entries, then start/end date spans
above 10 days (naming both spans); otherwise sort the (ETF, momentum)
pairs by descending momentum (stable) and wrap them with the first
observation's start/end dates and the current timestamp. -/
def calculate_ranking (now : PyDateTime) (pd : List PriceData) :
    Except PyErr MomentumRanking :=
  if pd.length ≠ 4 then
    .error (.missingData (etfCatalog.filter fun e => ¬ pd.any fun p => p.etf = e))
  else if ¬ (pd.map fun p => p.etf).Nodup then .error .duplicateEntries
  else if startSpan pd > 10 ∨ endSpan pd > 10 then
    .error (.inconsistentPeriods (startSpan pd) (endSpan pd))
  else
    match pd with
    | [] => .error .indexError
    | p0 :: _ =>
      mkMomentumRanking (sortDesc (pd.map fun p => (p.etf, momentum p)))
        p0.startDate p0.endDate now

/-- Embeds `MomentumStrategy.get_analysis_period` (`strategy.py`): zero the
day to the first of the `as_of` month, move back `skip` months, step
one month forward and one day back to reach the last day of the target
month, then move back `lookback` months for the period start. -/
def get_analysis_period (lookback skip : Nat) (asOf : PDate) :
    PDate × PDate :=
  let firstOfCurrent : PDate := ⟨asOf.y, asOf.m, 1⟩
  let firstOfTarget := subMonthsRel skip firstOfCurrent
  let endDate := (addOneMonthRel firstOfTarget).prevDay
  let startDate := subMonthsRel lookback endDate
  (startDate, endDate)

/-- Filter a pair list to the entries with a given momentum value;
used to state that the stable sort keeps ties in source order. -/
def momFilter (q : ℚ) (l : List (ETF × ℚ)) : List (ETF × ℚ) :=
  l.filter fun p => p.2 = q

/-- Concrete inputs from the spec's ranking example: one observation
per catalog ETF over 2024-12-31 → 2025-12-31. -/
def c5Input : List PriceData :=
  [⟨.CNDX, ⟨⟨2024,12,31⟩,0⟩, ⟨⟨2025,12,31⟩,0⟩, 800, 920⟩,
   ⟨.EIMI, ⟨⟨2024,12,31⟩,0⟩, ⟨⟨2025,12,31⟩,0⟩, 25, 57/2⟩,
   ⟨.IB01, ⟨⟨2024,12,31⟩,0⟩, ⟨⟨2025,12,31⟩,0⟩, 100, 209/2⟩,
   ⟨.CBU0, ⟨⟨2024,12,31⟩,0⟩, ⟨⟨2025,12,31⟩,0⟩, 95, 92⟩]

/-- A normalized search result (title, url, snippet, originating
source label), as assembled by the search clients. -/
structure SearchResult where
  title : String
  url : String
  snippet : String
  source : String
  deriving DecidableEq, Repr

/-- Recursion core of `CompositeSearchProvider._deduplicate_results`:
walk the list with the set of already-seen URLs, keeping a result only
when its URL is non-empty and unseen. -/
def dedupGo (seen : List String) : List SearchResult → List SearchResult
  | [] => []
  | r :: rs =>
    if r.url ≠ "" ∧ r.url ∉ seen then r :: dedupGo (r.url :: seen) rs
    else dedupGo seen rs

/-- Embeds `CompositeSearchProvider._deduplicate_results`. -/
def deduplicate_results (l : List SearchResult) : List SearchResult :=
  dedupGo [] l

/-- Embeds `CompositeSearchProvider.search`: ask Serper for up to `n`
results, top up any shortfall from Brave, deduplicate by URL and
truncate to `n`.  A source is abstracted by the result list it returns
for a requested count; `none` models an unavailable client (a raising
client likewise contributes no results and is subsumed by a source
returning `[]`).  The second component records the count Brave was
asked for (`none` when Brave was not consulted), instrumenting the
shortfall dispatch without altering it. -/
def composite_search (serper brave : Option (Nat → List SearchResult))
    (n : Nat) : List SearchResult × Option Nat :=
  let r1 : List SearchResult :=
    match serper with
    | some f => f n
    | none => []
  if r1.length < n then
    match brave with
    | some g =>
      ((deduplicate_results (r1 ++ g (n - r1.length))).take n,
        some (n - r1.length))
    | none => ((deduplicate_results r1).take n, none)
  else ((deduplicate_results r1).take n, none)

/-- The list Brave contributes for a request of `n` results, given
Serper already supplied `sf n`. -/
def braveTopUp (sf bf : Nat → List SearchResult) (n : Nat) :
    List SearchResult :=
  if (sf n).length < n then bf (n - (sf n).length) else []

/-- Recursion core of the per-provider `get_all_etf_data` loop
(`stooq.py` / `yahoo_finance.py`): iterate the ETFs, collecting
successes; with `fail_fast` the first failure raises the provider
error, otherwise it is logged and skipped. -/
def providerGo (fetch : ETF → Except Unit PriceData) (failFast : Bool) :
    List ETF → Except Unit (List PriceData)
  | [] => .ok []
  | e :: es =>
    match fetch e with
    | .ok d => (providerGo fetch failFast es).map (fun rest => d :: rest)
    | .error _ =>
      if failFast then .error () else providerGo fetch failFast es

/-- A provider's `get_all_etf_data(start, end, fail_fast)`, with the
provider abstracted by its per-ETF fetch outcome for the given period. -/
def provider_get_all (fetch : ETF → Except Unit PriceData)
    (failFast : Bool) : Except Unit (List PriceData) :=
  providerGo fetch failFast etfCatalog

/-- The best-effort batch a provider returns with `fail_fast=false`:
the successful observations, in catalog order. -/
def bestEffort (fetch : ETF → Except Unit PriceData) : List PriceData :=
  etfCatalog.filterMap fun e => (fetch e).toOption

/-- Embeds `set(ETF) - {pd.etf for pd in data}` — the catalog members with no
observation in `data` (iterated in catalog order in this model; the
Python set iteration order is unspecified). -/
def missingEtfs (data : List PriceData) : List ETF :=
  etfCatalog.filter fun e => ¬ data.any fun p => p.etf = e

/-- The composite's whole-batch fallback path: retry the batch on the
fallback provider; if that also raises, re-raise when `fail_fast` and
return the empty list otherwise. -/
def fallbackWhole (fetchF : ETF → Except Unit PriceData)
    (failFast : Bool) : Except Unit (List PriceData) :=
  match provider_get_all fetchF failFast with
  | .ok d => .ok d
  | .error _ => if failFast then .error () else .ok []

/-- Embeds `CompositeMarketDataProvider.get_all_etf_data`
(`composite_provider.py`): ask the primary for a best-effort batch; a
non-empty complete batch is returned as-is; a non-empty partial batch
triggers per-missing-ETF fallback fetches only when `fail_fast` is
false; an empty batch is treated as a full primary failure and the
whole batch is retried on the fallback.  The second component records
the ETFs for which the fallback's single-ETF fetch was attempted
(instrumentation only). -/
def composite_get_all (fetchP fetchF : ETF → Except Unit PriceData)
    (failFast : Bool) : Except Unit (List PriceData) × List ETF :=
  match provider_get_all fetchP false with
  | .error _ => (fallbackWhole fetchF failFast, [])
  | .ok data =>
    if data ≠ [] then
      if data.length < 4 ∧ failFast = false then
        (.ok (data ++ (missingEtfs data).filterMap fun e => (fetchF e).toOption),
          missingEtfs data)
      else (.ok data, [])
    else (fallbackWhole fetchF failFast, [])

/-- A fixed concrete observation for counterexample inputs. -/
def mkObs (e : ETF) : PriceData :=
  ⟨e, ⟨⟨2024,12,31⟩,0⟩, ⟨⟨2025,12,31⟩,0⟩, 100, 110⟩

/-- A primary source that succeeds for every catalog ETF except IB01. -/
def c3Primary : ETF → Except Unit PriceData
  | .IB01 => .error ()
  | e => .ok (mkObs e)

/-- A fallback source that succeeds for every catalog ETF. -/
def c3Fallback : ETF → Except Unit PriceData := fun e => .ok (mkObs e)

/-- One `research_cache` row: ETF name (unique key), cached payload
(the JSON `dumps`/`loads` round-trip is modelled as the identity),
creation and expiry timestamps. -/
structure CacheEntry (α : Type) where
  etf_name : String
  research_data : α
  created_at : PyDateTime
  expires_at : PyDateTime
  deriving DecidableEq

/-- The `research_cache` table, rows in insertion/scan order. -/
structure CacheState (α : Type) where
  rows : List (CacheEntry α)
  deriving DecidableEq

/-- The SQL comparison `expires_at > datetime('now')` as it evaluates
on this schema (`repositories.py`).  `expires_at` stores a Python
`isoformat()` string `YYYY-MM-DDTHH:MM:SS[.ffffff]`, while
`datetime('now')` yields `YYYY-MM-DD HH:MM:SS`; SQLite compares the
two TEXT values byte-wise.  The zero-padded 10-byte date prefixes
order chronologically, and when they are equal the comparison is
decided at byte 10, where the stored `T` (0x54) is greater than the
space (0x20) — so an entry whose expiry date equals the current date
always compares greater than "now", whatever the times of day. -/
def isoAfterSqlNow (expires now : PyDateTime) : Bool :=
  decide (PDate.lt now.date expires.date) || decide (expires.date = now.date)

/-- Embeds `datetime.now() + timedelta(hours=24)` (the repository's default
`ttl_hours = 24`): same time of day, next calendar day. -/
def addTtl24h (t : PyDateTime) : PyDateTime :=
  ⟨t.date.nextDay, t.tod⟩

/-- Embeds `ResearchCacheRepository.get`: first row matching the name whose
stored expiry string compares greater than `datetime('now')`. -/
def cache_get {α : Type} (st : CacheState α) (name : String)
    (now : PyDateTime) : Option α :=
  (st.rows.find? fun e =>
    e.etf_name = name ∧ isoAfterSqlNow e.expires_at now).map
    fun e => e.research_data

/-- Embeds `ResearchCacheRepository.set`: `INSERT OR REPLACE` keyed on the
unique `etf_name` — any conflicting row is deleted and the fresh row
(with expiry `now + 24h`) is appended. -/
def cache_set {α : Type} (st : CacheState α) (name : String)
    (payload : α) (now : PyDateTime) : CacheState α :=
  ⟨(st.rows.filter fun e => e.etf_name ≠ name) ++
    [⟨name, payload, now, addTtl24h now⟩]⟩

/-- Embeds `ResearchCacheRepository.clear_expired`: delete the rows whose
expiry string compares `<=` to `datetime('now')`, returning the count. -/
def clear_expired {α : Type} (st : CacheState α) (now : PyDateTime) :
    Nat × CacheState α :=
  ((st.rows.filter fun e => ¬ isoAfterSqlNow e.expires_at now).length,
    ⟨st.rows.filter fun e => isoAfterSqlNow e.expires_at now⟩)

/-- The JSON object produced by `MomentumRanking.to_dict` and stored
in the row's `ranking_json` column: (member-name, momentum) pairs, the
three ISO timestamps, and the derived winner fields.  JSON
`dumps`/`loads` round-trips this shape exactly (momenta are modelled
as exact rationals, datetimes stand for their ISO strings). -/
structure RankingJson where
  rankings : List (String × ℚ)
  period_start : PyDateTime
  period_end : PyDateTime
  calculated_at : PyDateTime
  winner : String
  winner_momentum : ℚ
  deriving DecidableEq

/-- One `signals` row as inserted by `SignalRepository.save`.  The
schema has no column for the signal's comparison link. -/
structure SignalRow where
  created_at : PyDateTime
  recommended_etf : String
  previous_etf : Option String
  requires_rebalance : Int
  winner_momentum : ℚ
  ranking_json : RankingJson
  report : Option String
  period_start : PyDateTime
  period_end : PyDateTime
  deriving DecidableEq

/-- Embeds `SignalRepository.save`: serialize the embedded ranking
(`to_dict`, whose `winner`/`winner_momentum` accessors raise
`IndexError` on an empty ranking tuple) and build the row. -/
def signal_save (s : Signal) : Except PyErr SignalRow :=
  match s.ranking.rankings with
  | [] => .error .indexError
  | (w, m) :: _ =>
    .ok { created_at := s.createdAt
          recommended_etf := s.recommendedEtf.pyName
          previous_etf := s.previousEtf.map ETF.pyName
          requires_rebalance := if s.requiresRebalance then 1 else 0
          winner_momentum := m
          ranking_json :=
            ⟨s.ranking.rankings.map fun p => (p.1.pyName, p.2),
              s.ranking.periodStart, s.ranking.periodEnd,
              s.ranking.calculatedAt, w.pyName, m⟩
          report := s.report
          period_start := s.ranking.periodStart
          period_end := s.ranking.periodEnd }

/-- Re-resolve the stored (name, momentum) pairs against the catalog
(`ETF[name]`, raising `KeyError` on an unmatched name). -/
def parse_rankings : List (String × ℚ) → Except PyErr (List (ETF × ℚ))
  | [] => .ok []
  | (n, m) :: rest => do
    let e ← etfOfName n
    let tail ← parse_rankings rest
    .ok ((e, m) :: tail)

/-- Embeds `SignalRepository._row_to_signal`: parse the ranking JSON,
reconstruct the `MomentumRanking` (running its validation) and the
`Signal`.  The `Signal` constructor call passes no `stooq_link`, so
the field takes its default `None`. -/
def row_to_signal (row : SignalRow) : Except PyErr Signal := do
  let rankings ← parse_rankings row.ranking_json.rankings
  let ranking ← mkMomentumRanking rankings row.ranking_json.period_start
    row.ranking_json.period_end row.ranking_json.calculated_at
  let recEtf ← etfOfName row.recommended_etf
  let prev ← match row.previous_etf with
    | some n => (etfOfName n).map some
    | none => .ok none
  .ok { recommendedEtf := recEtf
        ranking := ranking
        previousEtf := prev
        requiresRebalance := row.requires_rebalance ≠ 0
        createdAt := row.created_at
        report := row.report
        stooqLink := none }

/-- A concrete signal carrying a comparison link, for the C10 witness. -/
def c10Signal : Signal :=
  { recommendedEtf := .CNDX
    ranking := ⟨[(.CNDX, 3/20), (.EIMI, 7/50), (.IB01, 9/200), (.CBU0, -3/95)],
      ⟨⟨2024,12,31⟩,0⟩, ⟨⟨2025,12,31⟩,0⟩, ⟨⟨2026,1,10⟩,0⟩⟩
    previousEtf := some .EIMI
    requiresRebalance := true
    createdAt := ⟨⟨2026,1,10⟩,0⟩
    report := some "analysis report"
    stooqLink := some "https://stooq.pl/q/c/" }

/-- The SQLite schema state the migration manager manipulates: which
tables/indexes exist, which columns `signals` has, and the recorded
`schema_version` rows in insertion (= `applied_at`) order. -/
structure DBSchema where
  signalsTable : Bool
  researchCacheTable : Bool
  schemaVersionTable : Bool
  versionRows : List Nat
  idxSignalsCreatedAt : Bool
  idxSignalsDate : Bool
  idxResearchCacheEtf : Bool
  signalsHasDateColumn : Bool
  deriving DecidableEq, Repr

/-- The schema `Database._init_schema` creates (`database.py`): the
`signals` table — whose columns are `id, created_at, recommended_etf,
previous_etf, requires_rebalance, winner_momentum, ranking_json,
report, period_start, period_end`, with no `date` column — its
`created_at` index, and the `research_cache` table with its index.
No `schema_version` table is created here. -/
def initSchema : DBSchema :=
  { signalsTable := true
    researchCacheTable := true
    schemaVersionTable := false
    versionRows := []
    idxSignalsCreatedAt := true
    idxSignalsDate := false
    idxResearchCacheEtf := true
    signalsHasDateColumn := false }

/-- A `Database` object as built by `Database.__init__`
(`database.py`): it stores `db_path`, creates the schema, and exposes
a scoped `connection()` context manager — it never assigns a `conn`
attribute, so attribute lookup `db.conn` fails on every instance
(modelled by the `Option` field, `none` meaning the attribute is
absent). -/
structure PyDatabase where
  conn : Option Unit
  deriving DecidableEq, Repr

/-- The object `Database(db_path)` evaluates to: no `conn` attribute. -/
def mkDatabase : PyDatabase := { conn := none }

/-- The attribute access `self.db.conn` used by every
`MigrationManager` method (`migrations.py`). -/
def dbConn (db : PyDatabase) : Except PyErr Unit :=
  match db.conn with
  | some c => .ok c
  | none => .error (.attributeError "conn")

/-- Embeds `MigrationManager.create_schema_version_table`: a `CREATE TABLE IF
NOT EXISTS schema_version` through `self.db.conn`, with no
try/except around it. -/
def create_schema_version_table (db : PyDatabase) (st : DBSchema) :
    Except PyErr DBSchema := do
  let _ ← dbConn db
  .ok { st with schemaVersionTable := true }

/-- Embeds `MigrationManager.get_schema_version`: the most recent version row
(`ORDER BY applied_at DESC LIMIT 1`); any exception — including the
missing `conn` attribute or a missing table — is swallowed into 0. -/
def get_schema_version (db : PyDatabase) (st : DBSchema) : Nat :=
  match db.conn with
  | none => 0
  | some _ =>
    if st.schemaVersionTable then (st.versionRows.getLast?).getD 0 else 0

/-- Embeds `MigrationManager.set_schema_version`: insert a (version,
applied-at) row. -/
def set_schema_version (db : PyDatabase) (st : DBSchema) (v : Nat) :
    Except PyErr DBSchema := do
  let _ ← dbConn db
  if st.schemaVersionTable then
    .ok { st with versionRows := st.versionRows ++ [v] }
  else .error (.operationalError "no such table: schema_version")

/-- Embeds `MigrationManager.migrate_to_v1`: `CREATE INDEX IF NOT EXISTS
idx_signals_date ON signals(date DESC)` then the `created_at` index.
The `signals` table created by `_init_schema` has no `date` column,
so even with a live connection SQLite raises an `OperationalError`
for the first statement. -/
def migrate_to_v1 (db : PyDatabase) (st : DBSchema) :
    Except PyErr DBSchema := do
  let _ ← dbConn db
  if ¬ st.signalsHasDateColumn then
    .error (.operationalError "no such column: date")
  else .ok { st with idxSignalsDate := true, idxSignalsCreatedAt := true }

/-- Embeds `MigrationManager.migrate_to_v2`: create the research-cache table
and its index if missing (idempotent with `_init_schema`). -/
def migrate_to_v2 (db : PyDatabase) (st : DBSchema) :
    Except PyErr DBSchema := do
  let _ ← dbConn db
  .ok { st with researchCacheTable := true, idxResearchCacheEtf := true }

/-- One iteration of the `run_migrations` loop body: run the defined
migration for `v` (versions without one are skipped with a warning)
and record it. -/
def apply_migration (db : PyDatabase) (st : DBSchema) (v : Nat) :
    Except PyErr DBSchema :=
  if v = 1 then do
    let st2 ← migrate_to_v1 db st
    set_schema_version db st2 v
  else if v = 2 then do
    let st2 ← migrate_to_v2 db st
    set_schema_version db st2 v
  else .ok st

/-- The `for version in range(...)` loop of `run_migrations`. -/
def run_versions (db : PyDatabase) : List Nat → DBSchema → Except PyErr DBSchema
  | [], st => .ok st
  | v :: vs, st => do
    let st2 ← apply_migration db st v
    run_versions db vs st2

/-- Embeds `MigrationManager.run_migrations` with target
`CURRENT_VERSION = 2`: ensure the version table, read the current
version, return if already at target, else apply
`range(current + 1, 3)` in order. -/
def run_migrations (db : PyDatabase) (st : DBSchema) :
    Except PyErr DBSchema := do
  let st1 ← create_schema_version_table db st
  let current := get_schema_version db st1
  if 2 ≤ current then .ok st1
  else run_versions db (List.range' (current + 1) (2 - current)) st1

/-- Embeds `ETF.display_name` of each catalog member (`models.py`). -/
def ETF.displayName : ETF → String
  | .EIMI => "iShares EM IMI (EIMI)"
  | .CNDX => "iShares NASDAQ 100 (CNDX)"
  | .CBU0 => "iShares Treasury 7-10Y (CBU0)"
  | .IB01 => "iShares Treasury 0-1Y (IB01)"

/-- Python `round(x, 2)` on an exact rational: half-to-even at two
decimals. -/
def roundTo2 (q : ℚ) : ℚ :=
  (bankersRound (q * 100) : ℚ) / 100

/-- Attribute lookup `signal.date` (`use_cases.py`, response
assembly).  The `Signal` dataclass (`models.py`) defines the fields
`recommended_etf`, `ranking`, `previous_etf`, `requires_rebalance`,
`created_at`, `report`, `stooq_link` and the properties `action` and
`action_emoji`; it has no `date` attribute, so the lookup raises
`AttributeError`. -/
def signalAttrDate (s : Signal) : Except PyErr PyDateTime :=
  .error (.attributeError "date")

/-- Attribute lookup `signal.rationale` (`use_cases.py`): `Signal`
defines no `rationale` attribute either (the narrative lives in
`report`). -/
def signalAttrRationale (s : Signal) : Except PyErr String :=
  .error (.attributeError "rationale")

/-- Attribute lookup `strategy.rank_etfs` (`use_cases.py`, ranking
re-computation).  `MomentumStrategy` (`strategy.py`) defines
`get_analysis_period`, `calculate_ranking`, `generate_signal` and
`get_explanation` only — no `rank_etfs` — so the lookup raises
`AttributeError` (which the surrounding try/except swallows). -/
def strategyAttrRankEtfs :
    Except PyErr (List PriceData → List (ETF × ℚ)) :=
  .error (.attributeError "rank_etfs")

/-- The `response["signal"]` summary dictionary `execute` tries to
assemble. -/
structure SignalSummary where
  action : String
  recommended_etf : Option String
  date : PyDateTime
  rationale : String
  deriving DecidableEq

/-- One `response["ranking"]` entry. -/
structure RankingEntry where
  etf : String
  etf_display_name : String
  score : ℚ
  rank : Nat
  deriving DecidableEq

/-- The response dictionary of `AnalyzeAndRecommendUseCase.execute`. -/
structure UCResponse where
  signal : SignalSummary
  ranking : List RankingEntry
  total_etfs_analyzed : Nat
  research_included : Bool
  saved_to_db : Bool
  deriving DecidableEq

/-- Embeds `AnalyzeAndRecommendUseCase.execute` (`use_cases.py`), with the
phase outcomes abstracted: `analysis` is what
`AnalysisService.run_analysis` did, `fetchOutcome` what the second
`get_all_etf_data` fetch did, `researchOutcome` / `saveOutcome` what
the research and persistence services did.  The analysis phase
re-raises on failure; the ranking re-computation, research and
persistence phases each swallow their exceptions; the response
assembly at the end is not guarded by any try/except. -/
def uc_execute (analysis : Except PyErr Signal)
    (fetchOutcome : Except PyErr (List PriceData))
    (researchOutcome : Except PyErr Unit) (saveOutcome : Except PyErr Unit)
    (include_research save_to_db : Bool) : Except PyErr UCResponse := do
  let signal ← analysis
  let ranking : List (ETF × ℚ) :=
    match fetchOutcome with
    | .error _ => []
    | .ok pd =>
      match strategyAttrRankEtfs with
      | .error _ => []
      | .ok f => f pd
  let researchOk : Bool :=
    if include_research ∧ ranking ≠ [] then
      match researchOutcome with
      | .ok _ => true
      | .error _ => false
    else false
  let _ : Unit :=
    if save_to_db then
      match saveOutcome with
      | .ok u => u
      | .error _ => ()
    else ()
  let d ← signalAttrDate signal
  let r ← signalAttrRationale signal
  .ok { signal :=
          { action := signal.action
            recommended_etf := some signal.recommendedEtf.pyName
            date := d
            rationale := r }
        ranking := ranking.enum.map fun p =>
          ⟨p.2.1.pyName, p.2.1.displayName, roundTo2 p.2.2, p.1 + 1⟩
        total_etfs_analyzed := ranking.length
        research_included := include_research && researchOk
        saved_to_db := save_to_db }

/-- Claim C8 -/
theorem c8_price_observation_construction (etf : ETF) (sd ed : PyDateTime)
    (sp ep : ℚ) :
    ((∃ e, mkPriceData etf sd ed sp ep = .error e) ↔
      (sp ≤ 0 ∨ ep ≤ 0 ∨ ¬ PyDateTime.lt sd ed)) ∧
    (0 < sp → 0 < ep → PyDateTime.lt sd ed →
      mkPriceData etf sd ed sp ep = .ok ⟨etf, sd, ed, sp, ep⟩) ∧
    momentum ⟨etf, sd, ed, sp, ep⟩ = (ep - sp) / sp ∧
    momentum ⟨.CNDX, ⟨⟨2024,12,31⟩,0⟩, ⟨⟨2025,12,31⟩,0⟩, 800, 920⟩ = 3/20 ∧
    momentumPct ⟨.CNDX, ⟨⟨2024,12,31⟩,0⟩, ⟨⟨2025,12,31⟩,0⟩, 800, 920⟩ = "+15.00%" := by
  have hm : momentum ⟨.CNDX, ⟨⟨2024,12,31⟩,0⟩, ⟨⟨2025,12,31⟩,0⟩, 800, 920⟩ = 3/20 := by
    norm_num [momentum]
  refine ⟨?_, ?_, rfl, hm, ?_⟩
  · unfold mkPriceData
    split_ifs with h1 h2 h3
    · exact ⟨fun _ => Or.inl h1, fun _ => ⟨_, rfl⟩⟩
    · exact ⟨fun _ => Or.inr (Or.inl h2), fun _ => ⟨_, rfl⟩⟩
    · constructor
      · rintro ⟨e, he⟩
        cases he
      · intro h
        rcases h with h | h | h
        · exact absurd h h1
        · exact absurd h h2
        · exact absurd h3 h
    · exact ⟨fun _ => Or.inr (Or.inr h3), fun _ => ⟨_, rfl⟩⟩
  · intro hsp hep hlt
    unfold mkPriceData
    rw [if_neg (not_le.mpr hsp), if_neg (not_le.mpr hep), if_neg (not_not_intro hlt)]
  · have h : bankersRound (|momentum ⟨.CNDX, ⟨⟨2024,12,31⟩,0⟩, ⟨⟨2025,12,31⟩,0⟩, 800, 920⟩| * 10000) = 1500 := by
      rw [hm, abs_of_nonneg (by norm_num : (0:ℚ) ≤ 3/20)]
      have h2 : (3/20 : ℚ) * 10000 = 1500 := by norm_num
      rw [h2]
      norm_num [bankersRound]
    have h3 : ¬ momentum ⟨.CNDX, ⟨⟨2024,12,31⟩,0⟩, ⟨⟨2025,12,31⟩,0⟩, 800, 920⟩ < 0 := by
      rw [hm]; norm_num
    rw [momentumPct, if_neg h3, h]
    rfl

/-- Witness for C8 -/
theorem c8_witness :
    (0:ℚ) < 800 ∧ (0:ℚ) < 920 ∧
    PyDateTime.lt ⟨⟨2024,12,31⟩,0⟩ ⟨⟨2025,12,31⟩,0⟩ ∧
    mkPriceData .CNDX ⟨⟨2024,12,31⟩,0⟩ ⟨⟨2025,12,31⟩,0⟩ 800 920 =
      .ok ⟨.CNDX, ⟨⟨2024,12,31⟩,0⟩, ⟨⟨2025,12,31⟩,0⟩, 800, 920⟩ :=
  ⟨by norm_num, by norm_num, by decide,
    (c8_price_observation_construction .CNDX ⟨⟨2024,12,31⟩,0⟩ ⟨⟨2025,12,31⟩,0⟩ 800 920).2.1
      (by norm_num) (by norm_num) (by decide)⟩

/-- Claim C6 -/
theorem c6_generate_signal_action (r : MomentumRanking) (prev : Option ETF)
    (now : PyDateTime) (w : ETF) (m : ℚ) (rest : List (ETF × ℚ))
    (h : r.rankings = (w, m) :: rest) :
    ∃ s, generate_signal r prev now = .ok s ∧
      s.recommendedEtf = w ∧
      (s.requiresRebalance = true ↔ (prev = none ∨ prev ≠ some w)) ∧
      (s.requiresRebalance = false → s.action = "HOLD " ++ w.pyName) ∧
      (∀ p, prev = some p → s.requiresRebalance = true →
        s.action = "SWITCH " ++ p.pyName ++ " -> " ++ w.pyName) ∧
      (prev = none → s.requiresRebalance = true ∧ s.action = "BUY " ++ w.pyName) := by
  refine ⟨_, by rw [generate_signal, h], rfl, ?_⟩
  cases prev with
  | none =>
    refine ⟨by simp, ?_, ?_, ?_⟩
    · intro hfalse
      simp at hfalse
    · intro p hp
      cases hp
    · intro _
      exact ⟨rfl, rfl⟩
  | some p =>
    by_cases hp : w = p
    · subst hp
      refine ⟨by simp, ?_, ?_, ?_⟩
      · intro _
        simp [Signal.action]
      · intro q hq hreb
        simp at hreb
      · intro hnone
        cases hnone
    · refine ⟨⟨fun _ => Or.inr ?_, fun _ => by simp [hp]⟩, ?_, ?_, ?_⟩
      · simp only [ne_eq, Option.some.injEq]
        exact fun hq => hp hq.symm
      · intro hfalse
        simp [hp] at hfalse
      · intro q hq _
        cases hq
        simp only [Signal.action]
        rw [if_neg (by simp [hp])]
      · intro hnone
        cases hnone

/-- Witness for C6 -/
theorem c6_witness :
    (MomentumRanking.mk [(.CNDX, 3/20), (.EIMI, 7/50)] ⟨⟨2024,12,31⟩,0⟩ ⟨⟨2025,12,31⟩,0⟩ ⟨⟨2026,1,10⟩,0⟩).rankings =
      (.CNDX, 3/20) :: [(.EIMI, 7/50)] ∧
    ∃ s, generate_signal
        (MomentumRanking.mk [(.CNDX, 3/20), (.EIMI, 7/50)] ⟨⟨2024,12,31⟩,0⟩ ⟨⟨2025,12,31⟩,0⟩ ⟨⟨2026,1,10⟩,0⟩)
        (some .EIMI) ⟨⟨2026,1,10⟩,0⟩ = .ok s ∧
      s.recommendedEtf = .CNDX ∧
      (s.requiresRebalance = true ↔ (some ETF.EIMI = none ∨ some ETF.EIMI ≠ some ETF.CNDX)) ∧
      (s.requiresRebalance = false → s.action = "HOLD " ++ ETF.pyName .CNDX) ∧
      (∀ p, some ETF.EIMI = some p → s.requiresRebalance = true →
        s.action = "SWITCH " ++ p.pyName ++ " -> " ++ ETF.pyName .CNDX) ∧
      (some ETF.EIMI = none → s.requiresRebalance = true ∧ s.action = "BUY " ++ ETF.pyName .CNDX) :=
  ⟨rfl, c6_generate_signal_action _ (some .EIMI) ⟨⟨2026,1,10⟩,0⟩ .CNDX (3/20) [(.EIMI, 7/50)] rfl⟩

theorem daysInMonth_ge_one (y m : Int) : 1 ≤ daysInMonth y m := by
  unfold daysInMonth
  split_ifs <;> norm_num

theorem daysInMonth_dec (y : Int) : daysInMonth y 12 = 31 := by
  unfold daysInMonth
  norm_num

theorem monthsBack_month_bounds (k : Nat) :
    ∀ ym : Int × Int, 1 ≤ ym.2 → ym.2 ≤ 12 →
      1 ≤ (monthsBack k ym).2 ∧ (monthsBack k ym).2 ≤ 12 := by
  induction k with
  | zero =>
    intro ym h1 h2
    exact ⟨h1, h2⟩
  | succ k ih =>
    intro ym h1 h2
    show 1 ≤ (monthsBack k (monthBack1 ym)).2 ∧ (monthsBack k (monthBack1 ym)).2 ≤ 12
    apply ih
    · unfold monthBack1
      split_ifs <;> simp <;> omega
    · unfold monthBack1
      split_ifs <;> simp <;> omega

theorem lastday_of_next_first (y m : Int) (h1 : 1 ≤ m) (h2 : m ≤ 12) :
    PDate.prevDay (addOneMonthRel ⟨y, m, 1⟩) = ⟨y, m, daysInMonth y m⟩ := by
  unfold addOneMonthRel monthFwd1
  by_cases h12 : m = 12
  · subst h12
    simp only [if_pos rfl]
    rw [min_eq_left (daysInMonth_ge_one _ _)]
    unfold PDate.prevDay
    norm_num [daysInMonth_dec]
  · have hc : ((y, m) : Int × Int).2 ≠ 12 := h12
    simp only [if_neg hc]
    rw [min_eq_left (daysInMonth_ge_one _ _)]
    unfold PDate.prevDay
    simp only []
    rw [if_neg (by omega : ¬ (1 : Int) < 1), if_pos (by omega : (1 : Int) < m + 1)]
    norm_num

/-- Claim C4 -/
theorem c4_analysis_period (lookback skip : Nat) (asOf : PDate)
    (hlb : 1 ≤ lookback) (hv : asOf.Valid) :
    (get_analysis_period lookback skip asOf).2 =
      ⟨(monthsBack skip (asOf.y, asOf.m)).1, (monthsBack skip (asOf.y, asOf.m)).2,
        daysInMonth (monthsBack skip (asOf.y, asOf.m)).1 (monthsBack skip (asOf.y, asOf.m)).2⟩ ∧
    (get_analysis_period lookback skip asOf).1 =
      subMonthsRel lookback (get_analysis_period lookback skip asOf).2 ∧
    (skip = 0 →
      (get_analysis_period lookback skip asOf).2 =
        ⟨asOf.y, asOf.m, daysInMonth asOf.y asOf.m⟩) ∧
    get_analysis_period 12 1 ⟨2026, 1, 10⟩ = (⟨2024, 12, 31⟩, ⟨2025, 12, 31⟩) := by
  have hb := monthsBack_month_bounds skip (asOf.y, asOf.m) hv.1 hv.2.1
  have hft : subMonthsRel skip ⟨asOf.y, asOf.m, 1⟩ =
      ⟨(monthsBack skip (asOf.y, asOf.m)).1, (monthsBack skip (asOf.y, asOf.m)).2, 1⟩ := by
    simp only [subMonthsRel]
    rw [min_eq_left (daysInMonth_ge_one _ _)]
  have hend : (get_analysis_period lookback skip asOf).2 =
      ⟨(monthsBack skip (asOf.y, asOf.m)).1, (monthsBack skip (asOf.y, asOf.m)).2,
        daysInMonth (monthsBack skip (asOf.y, asOf.m)).1 (monthsBack skip (asOf.y, asOf.m)).2⟩ := by
    show PDate.prevDay (addOneMonthRel (subMonthsRel skip ⟨asOf.y, asOf.m, 1⟩)) = _
    rw [hft]
    exact lastday_of_next_first _ _ hb.1 hb.2
  refine ⟨hend, rfl, ?_, by decide⟩
  intro h0
  subst h0
  exact hend

theorem insDesc_perm (x : ETF × ℚ) (l : List (ETF × ℚ)) :
    (insDesc x l).Perm (x :: l) := by
  induction l with
  | nil => rfl
  | cons y ys ih =>
    rw [insDesc]
    split_ifs with h
    · rfl
    · exact (ih.cons y).trans (List.Perm.swap x y ys)

theorem insDesc_pairwise (x : ETF × ℚ) (l : List (ETF × ℚ))
    (h : l.Pairwise fun a b => b.2 ≤ a.2) :
    (insDesc x l).Pairwise fun a b => b.2 ≤ a.2 := by
  induction l with
  | nil => exact List.pairwise_singleton _ _
  | cons y ys ih =>
    rw [List.pairwise_cons] at h
    rw [insDesc]
    split_ifs with hlt
    · refine List.Pairwise.cons ?_ (List.Pairwise.cons h.1 h.2)
      intro z hz
      rcases List.mem_cons.mp hz with hz | hz
      · exact hz ▸ le_of_lt hlt
      · exact le_trans (h.1 z hz) (le_of_lt hlt)
    · refine List.Pairwise.cons ?_ (ih h.2)
      intro z hz
      rcases List.mem_cons.mp ((insDesc_perm x ys).mem_iff.mp hz) with hz | hz
      · exact hz ▸ not_lt.mp hlt
      · exact h.1 z hz

theorem momFilter_cons (q : ℚ) (z : ETF × ℚ) (zs : List (ETF × ℚ)) :
    momFilter q (z :: zs) =
      if z.2 = q then z :: momFilter q zs else momFilter q zs := by
  by_cases hz : z.2 = q
  · simp [momFilter, List.filter_cons, hz]
  · simp [momFilter, List.filter_cons, hz]

theorem insDesc_momFilter (x : ETF × ℚ) (l : List (ETF × ℚ))
    (h : l.Pairwise fun a b => b.2 ≤ a.2) (q : ℚ) :
    momFilter q (insDesc x l) =
      if x.2 = q then momFilter q l ++ [x] else momFilter q l := by
  induction l with
  | nil =>
    by_cases hx : x.2 = q
    · simp [momFilter, insDesc, hx]
    · simp [momFilter, insDesc, hx]
  | cons y ys ih =>
    rw [List.pairwise_cons] at h
    by_cases hlt : y.2 < x.2
    · rw [insDesc, if_pos hlt]
      by_cases hx : x.2 = q
      · have hyq : ¬ y.2 = q := by
          intro hq
          rw [hq, ← hx] at hlt
          exact lt_irrefl _ hlt
        have h0 : momFilter q ys = [] := by
          rw [momFilter, List.filter_eq_nil_iff]
          intro z hz
          simp only [decide_eq_true_eq]
          intro hq
          have hlt2 := lt_of_le_of_lt (h.1 z hz) hlt
          rw [hq, hx] at hlt2
          exact lt_irrefl _ hlt2
        rw [if_pos hx, momFilter_cons, if_pos hx, momFilter_cons, if_neg hyq, h0]
        rfl
      · rw [if_neg hx, momFilter_cons, if_neg hx]
    · rw [insDesc, if_neg hlt]
      by_cases hy : y.2 = q
      · rw [momFilter_cons, if_pos hy, ih h.2, momFilter_cons, if_pos hy]
        by_cases hx : x.2 = q
        · rw [if_pos hx, if_pos hx]
          rfl
        · rw [if_neg hx, if_neg hx]
      · rw [momFilter_cons, if_neg hy, ih h.2, momFilter_cons, if_neg hy]

theorem foldl_insDesc_perm (l : List (ETF × ℚ)) :
    ∀ acc, (l.foldl (fun a x => insDesc x a) acc).Perm (acc ++ l) := by
  induction l with
  | nil => intro acc; simp
  | cons x xs ih =>
    intro acc
    have h1 : (xs.foldl (fun a x => insDesc x a) (insDesc x acc)).Perm
        (insDesc x acc ++ xs) := ih _
    refine h1.trans ?_
    refine (((insDesc_perm x acc).append_right xs).trans ?_)
    exact List.perm_middle.symm.trans (by simp)

theorem foldl_insDesc_pairwise (l : List (ETF × ℚ)) :
    ∀ acc, acc.Pairwise (fun a b => b.2 ≤ a.2) →
      (l.foldl (fun a x => insDesc x a) acc).Pairwise (fun a b => b.2 ≤ a.2) := by
  induction l with
  | nil => intro acc h; exact h
  | cons x xs ih =>
    intro acc h
    exact ih _ (insDesc_pairwise x acc h)

theorem foldl_insDesc_momFilter (q : ℚ) (l : List (ETF × ℚ)) :
    ∀ acc, acc.Pairwise (fun a b => b.2 ≤ a.2) →
      momFilter q (l.foldl (fun a x => insDesc x a) acc) =
        momFilter q acc ++ momFilter q l := by
  induction l with
  | nil => intro acc _; simp [momFilter]
  | cons x xs ih =>
    intro acc h
    have h1 := ih (insDesc x acc) (insDesc_pairwise x acc h)
    rw [List.foldl_cons, h1, insDesc_momFilter x acc h q, momFilter_cons]
    by_cases hx : x.2 = q
    · rw [if_pos hx, if_pos hx]
      simp
    · rw [if_neg hx, if_neg hx]

theorem sortDesc_perm (l : List (ETF × ℚ)) : (sortDesc l).Perm l := by
  simpa using foldl_insDesc_perm l []

theorem sortDesc_pairwise (l : List (ETF × ℚ)) :
    (sortDesc l).Pairwise (fun a b => b.2 ≤ a.2) :=
  foldl_insDesc_pairwise l [] (List.Pairwise.nil)

theorem sortDesc_momFilter (q : ℚ) (l : List (ETF × ℚ)) :
    momFilter q (sortDesc l) = momFilter q l := by
  have := foldl_insDesc_momFilter q l [] (List.Pairwise.nil)
  simpa [momFilter] using this

theorem etf_mem_catalog (x : ETF) : x ∈ etfCatalog := by
  cases x
  all_goals simp [etfCatalog]

theorem mem_missing_iff (pd : List PriceData) (x : ETF) :
    (x ∈ etfCatalog.filter fun e => ¬ pd.any fun p => p.etf = e) ↔
      x ∉ pd.map fun p => p.etf := by
  rw [List.mem_filter]
  simp [etf_mem_catalog x, List.any_eq_true, List.mem_map]

theorem nodup_missing_length (l : List ETF) (hnd : l.Nodup) (e : ETF)
    (he : e ∉ l) : l.length ≤ 3 := by
  have hsub : l.toFinset ⊆ Finset.univ.erase e := by
    intro x hx
    rw [Finset.mem_erase]
    exact ⟨fun hxe => he (hxe ▸ (List.mem_toFinset.mp hx)), Finset.mem_univ x⟩
  have hc := Finset.card_le_card hsub
  rw [List.toFinset_card_of_nodup hnd,
    Finset.card_erase_of_mem (Finset.mem_univ e), Finset.card_univ] at hc
  have hcard : Fintype.card ETF = 4 := by decide
  omega

/-- Claim C5 -/
theorem c5_calculate_ranking (now : PyDateTime) (pd : List PriceData) :
    ((pd.map fun p => p.etf).Nodup →
      ∀ e : ETF, e ∉ pd.map (fun p => p.etf) →
      ∃ miss, calculate_ranking now pd = .error (.missingData miss) ∧
        e ∈ miss ∧ (∀ x : ETF, x ∈ miss ↔ x ∉ pd.map (fun p => p.etf))) ∧
    (¬ (pd.map fun p => p.etf).Nodup →
      ∃ err, calculate_ranking now pd = .error err) ∧
    (pd.length = 4 → (pd.map fun p => p.etf).Nodup →
      (startSpan pd > 10 ∨ endSpan pd > 10) →
      calculate_ranking now pd =
        .error (.inconsistentPeriods (startSpan pd) (endSpan pd))) ∧
    (∀ p0 rest, pd = p0 :: rest → pd.length = 4 →
      (pd.map fun p => p.etf).Nodup →
      startSpan pd ≤ 10 → endSpan pd ≤ 10 →
      ∃ r, calculate_ranking now pd = .ok r ∧
        r.periodStart = p0.startDate ∧ r.periodEnd = p0.endDate ∧
        r.calculatedAt = now ∧
        r.rankings.Perm (pd.map fun p => (p.etf, momentum p)) ∧
        r.rankings.Pairwise (fun a b => b.2 ≤ a.2) ∧
        (∀ q, momFilter q r.rankings =
          momFilter q (pd.map fun p => (p.etf, momentum p)))) := by
  refine ⟨?_, ?_, ?_, ?_⟩
  · intro hnd e he
    have hlen : pd.length ≤ 3 := by
      have h1 := nodup_missing_length (pd.map fun p => p.etf) hnd e he
      simpa using h1
    have hne : pd.length ≠ 4 := by omega
    refine ⟨_, by rw [calculate_ranking.eq_def, if_pos hne], ?_, ?_⟩
    · exact (mem_missing_iff pd e).mpr he
    · exact fun x => mem_missing_iff pd x
  · intro hnd
    by_cases hlen : pd.length = 4
    · exact ⟨_, by rw [calculate_ranking.eq_def, if_neg (not_not_intro hlen), if_pos hnd]⟩
    · exact ⟨_, by rw [calculate_ranking.eq_def, if_pos hlen]⟩
  · intro hlen hnd hsp
    rw [calculate_ranking.eq_def, if_neg (not_not_intro hlen), if_neg (not_not_intro hnd),
      if_pos hsp]
  · intro p0 rest hpd hlen hnd hs he
    subst hpd
    have hnot : ¬ (startSpan (p0 :: rest) > 10 ∨ endSpan (p0 :: rest) > 10) := by
      push_neg
      exact ⟨hs, he⟩
    have hok : calculate_ranking now (p0 :: rest) =
        mkMomentumRanking (sortDesc ((p0 :: rest).map fun p => (p.etf, momentum p)))
          p0.startDate p0.endDate now := by
      rw [calculate_ranking.eq_def, if_neg (not_not_intro hlen),
        if_neg (not_not_intro hnd), if_neg hnot]
    have hlen2 :
        (sortDesc ((p0 :: rest).map fun p => (p.etf, momentum p))).length = 4 := by
      rw [(sortDesc_perm _).length_eq]
      simpa using hlen
    have hmk : mkMomentumRanking
        (sortDesc ((p0 :: rest).map fun p => (p.etf, momentum p)))
        p0.startDate p0.endDate now =
        .ok ⟨sortDesc ((p0 :: rest).map fun p => (p.etf, momentum p)),
          p0.startDate, p0.endDate, now⟩ := by
      unfold mkMomentumRanking
      rw [if_neg (by rw [hlen2]; norm_num), if_neg (by rw [hlen2]; exact not_not_intro rfl)]
    exact ⟨_, hok.trans hmk, rfl, rfl, rfl, sortDesc_perm _, sortDesc_pairwise _,
      fun q => sortDesc_momFilter q _⟩

/-- Witness for C5 -/
theorem c5_witness :
    c5Input.length = 4 ∧ (c5Input.map fun p => p.etf).Nodup ∧
    startSpan c5Input ≤ 10 ∧ endSpan c5Input ≤ 10 ∧
    ∃ r, calculate_ranking ⟨⟨2026,1,10⟩,0⟩ c5Input = .ok r ∧
      r.periodStart = ⟨⟨2024,12,31⟩,0⟩ ∧ r.periodEnd = ⟨⟨2025,12,31⟩,0⟩ ∧
      r.calculatedAt = ⟨⟨2026,1,10⟩,0⟩ ∧
      r.rankings.Perm (c5Input.map fun p => (p.etf, momentum p)) ∧
      r.rankings.Pairwise (fun a b => b.2 ≤ a.2) ∧
      (∀ q, momFilter q r.rankings =
        momFilter q (c5Input.map fun p => (p.etf, momentum p))) := by
  have hmain := (c5_calculate_ranking ⟨⟨2026,1,10⟩,0⟩ c5Input).2.2.2
    (c5Input.get ⟨0, by decide⟩) c5Input.tail rfl (by decide) (by decide)
    (by decide) (by decide)
  exact ⟨by decide, by decide, by decide, by decide, hmain⟩

/-- Witness for C4 -/
theorem c4_witness :
    (1 : Nat) ≤ 12 ∧ PDate.Valid ⟨2026, 1, 10⟩ ∧
    get_analysis_period 12 1 ⟨2026, 1, 10⟩ = (⟨2024, 12, 31⟩, ⟨2025, 12, 31⟩) :=
  ⟨by norm_num, by decide,
    (c4_analysis_period 12 1 ⟨2026, 1, 10⟩ (by norm_num) (by decide)).2.2.2⟩

theorem dedupGo_sublist (l : List SearchResult) :
    ∀ seen, (dedupGo seen l).Sublist l := by
  induction l with
  | nil => intro seen; simp [dedupGo]
  | cons h t ih =>
    intro seen
    rw [dedupGo]
    split_ifs with hc
    · exact (ih _).cons₂ h
    · exact (ih _).cons h

theorem dedupGo_mem (l : List SearchResult) :
    ∀ seen r, r ∈ dedupGo seen l → r.url ≠ "" ∧ r.url ∉ seen := by
  induction l with
  | nil => intro seen r hr; simp [dedupGo] at hr
  | cons h t ih =>
    intro seen r hr
    rw [dedupGo] at hr
    split_ifs at hr with hc
    · rcases List.mem_cons.mp hr with hr | hr
      · exact hr ▸ hc
      · have h2 := ih _ r hr
        exact ⟨h2.1, fun hm => h2.2 (List.mem_cons_of_mem _ hm)⟩
    · exact ih _ r hr

theorem dedupGo_map_nodup (l : List SearchResult) :
    ∀ seen, ((dedupGo seen l).map (fun r => r.url)).Nodup := by
  induction l with
  | nil => intro seen; simp [dedupGo]
  | cons h t ih =>
    intro seen
    rw [dedupGo]
    split_ifs with hc
    · rw [List.map_cons, List.nodup_cons]
      refine ⟨?_, ih _⟩
      intro hmem
      rcases List.mem_map.mp hmem with ⟨r, hr, hurl⟩
      exact (dedupGo_mem t _ r hr).2 (hurl ▸ List.mem_cons_self _ _)
    · exact ih _

theorem dedupGo_find (l : List SearchResult) :
    ∀ seen r, r ∈ dedupGo seen l →
      l.find? (fun x => x.url == r.url) = some r := by
  induction l with
  | nil => intro seen r hr; simp [dedupGo] at hr
  | cons h t ih =>
    intro seen r hr
    rw [dedupGo] at hr
    split_ifs at hr with hc
    · rcases List.mem_cons.mp hr with hr | hr
      · subst hr
        rw [List.find?_cons]
        simp
      · have h2 := dedupGo_mem t _ r hr
        have hne : (h.url == r.url) = false := by
          simp only [beq_eq_false_iff_ne, ne_eq]
          intro hEq
          exact h2.2 (hEq ▸ List.mem_cons_self _ _)
        rw [List.find?_cons, hne]
        exact ih _ r hr
    · have h2 := dedupGo_mem t _ r hr
      rw [not_and_or, not_not, not_not] at hc
      have hne : (h.url == r.url) = false := by
        simp only [beq_eq_false_iff_ne, ne_eq]
        intro hEq
        rcases hc with hc | hc
        · exact h2.1 (hEq.symm.trans hc)
        · exact h2.2 (hEq ▸ hc)
      rw [List.find?_cons, hne]
      exact ih _ r hr

/-- Claim C9 -/
theorem c9_composite_search (sf bf : Nat → List SearchResult) (n : Nat) :
    ((composite_search (some sf) (some bf) n).2 =
      if (sf n).length < n then some (n - (sf n).length) else none) ∧
    (composite_search (some sf) (some bf) n).1 =
      (deduplicate_results (sf n ++ braveTopUp sf bf n)).take n ∧
    (composite_search (some sf) (some bf) n).1.length ≤ n ∧
    (composite_search (some sf) (some bf) n).1.Sublist
      (sf n ++ braveTopUp sf bf n) ∧
    ((composite_search (some sf) (some bf) n).1.map fun r => r.url).Nodup ∧
    ∀ r ∈ (composite_search (some sf) (some bf) n).1, r.url ≠ "" ∧
      (sf n ++ braveTopUp sf bf n).find? (fun x => x.url == r.url) = some r := by
  have hout : (composite_search (some sf) (some bf) n).1 =
      (deduplicate_results (sf n ++ braveTopUp sf bf n)).take n := by
    rw [composite_search, braveTopUp]
    by_cases h : (sf n).length < n
    · rw [if_pos h, if_pos h]
    · rw [if_neg h, if_neg h, List.append_nil]
  have htrace : (composite_search (some sf) (some bf) n).2 =
      if (sf n).length < n then some (n - (sf n).length) else none := by
    rw [composite_search]
    by_cases h : (sf n).length < n
    · rw [if_pos h, if_pos h]
    · rw [if_neg h, if_neg h]
  refine ⟨htrace, hout, ?_, ?_, ?_, ?_⟩
  · rw [hout, List.length_take]
    exact min_le_left _ _
  · rw [hout]
    exact (List.take_sublist _ _).trans (dedupGo_sublist _ _)
  · rw [hout]
    exact ((List.take_sublist _ _).map _).nodup (dedupGo_map_nodup _ _)
  · intro r hr
    rw [hout] at hr
    have hmem := (List.take_sublist _ _).mem hr
    exact ⟨(dedupGo_mem _ _ r hmem).1, dedupGo_find _ _ r hmem⟩

/-- Witness for C9 -/
theorem c9_witness :
    (composite_search (some fun _ => [⟨"A", "http://x", "sa", "serper"⟩])
        (some fun _ => [⟨"B", "http://x", "sb", "brave"⟩]) 5).1 =
      [⟨"A", "http://x", "sa", "serper"⟩] ∧
    (composite_search (some fun _ => [⟨"A", "http://x", "sa", "serper"⟩])
        (some fun _ => [⟨"B", "http://x", "sb", "brave"⟩]) 5).2 = some 4 ∧
    ∀ r ∈ (composite_search (some fun _ => [⟨"A", "http://x", "sa", "serper"⟩])
        (some fun _ => [⟨"B", "http://x", "sb", "brave"⟩]) 5).1, r.url ≠ "" ∧
      (((fun _ => [⟨"A", "http://x", "sa", "serper"⟩]) 5 : List SearchResult) ++
        braveTopUp (fun _ => [⟨"A", "http://x", "sa", "serper"⟩])
          (fun _ => [⟨"B", "http://x", "sb", "brave"⟩]) 5).find?
        (fun x => x.url == r.url) = some r :=
  ⟨by rfl, by rfl,
    (c9_composite_search (fun _ => [⟨"A", "http://x", "sa", "serper"⟩])
      (fun _ => [⟨"B", "http://x", "sb", "brave"⟩]) 5).2.2.2.2.2⟩

theorem providerGo_false (fetch : ETF → Except Unit PriceData) :
    ∀ es : List ETF, providerGo fetch false es =
      .ok (es.filterMap fun e => (fetch e).toOption) := by
  intro es
  induction es with
  | nil => rfl
  | cons e es ih =>
    rw [providerGo]
    cases hf : fetch e with
    | ok d => simp [ih, List.filterMap_cons, hf, Except.toOption, Except.map]
    | error u => simp [ih, List.filterMap_cons, hf, Except.toOption]

theorem provider_get_all_bestEffort (fetch : ETF → Except Unit PriceData) :
    provider_get_all fetch false = .ok (bestEffort fetch) :=
  providerGo_false fetch etfCatalog

/-- Claim C3 (amended) -/
theorem c3_composite_batch (fetchP fetchF : ETF → Except Unit PriceData)
    (failFast : Bool) :
    (bestEffort fetchP ≠ [] → (bestEffort fetchP).length = 4 →
      composite_get_all fetchP fetchF failFast = (.ok (bestEffort fetchP), [])) ∧
    (bestEffort fetchP ≠ [] → (bestEffort fetchP).length < 4 → failFast = false →
      composite_get_all fetchP fetchF failFast =
        (.ok (bestEffort fetchP ++
          (missingEtfs (bestEffort fetchP)).filterMap fun e => (fetchF e).toOption),
          missingEtfs (bestEffort fetchP))) ∧
    (∀ e : ETF, e ∈ missingEtfs (bestEffort fetchP) ↔
      e ∉ (bestEffort fetchP).map fun p => p.etf) ∧
    (bestEffort fetchP ≠ [] → (bestEffort fetchP).length < 4 → failFast = true →
      composite_get_all fetchP fetchF failFast = (.ok (bestEffort fetchP), [])) ∧
    (bestEffort fetchP = [] →
      composite_get_all fetchP fetchF failFast = (fallbackWhole fetchF failFast, [])) := by
  have hred : composite_get_all fetchP fetchF failFast =
      (if bestEffort fetchP ≠ [] then
        if (bestEffort fetchP).length < 4 ∧ failFast = false then
          (.ok (bestEffort fetchP ++
            (missingEtfs (bestEffort fetchP)).filterMap fun e => (fetchF e).toOption),
            missingEtfs (bestEffort fetchP))
        else (.ok (bestEffort fetchP), [])
      else (fallbackWhole fetchF failFast, [])) := by
    rw [composite_get_all.eq_def, provider_get_all_bestEffort]
  refine ⟨?_, ?_, ?_, ?_, ?_⟩
  · intro hne hlen
    rw [hred, if_pos hne, if_neg (by simp [hlen])]
  · intro hne hlt hff
    rw [hred, if_pos hne, if_pos ⟨hlt, hff⟩]
  · intro e
    exact mem_missing_iff (bestEffort fetchP) e
  · intro hne hlt hff
    rw [hred, if_pos hne, if_neg (by simp [hff])]
  · intro hempty
    rw [hred, if_neg (by simp [hempty])]

/-- Counterexample for C3 -/
theorem c3_counterexample :
    c3Fallback .IB01 = .ok (mkObs .IB01) ∧
    composite_get_all c3Primary c3Fallback true =
      (.ok [mkObs .EIMI, mkObs .CNDX, mkObs .CBU0], []) ∧
    mkObs .IB01 ∉ [mkObs .EIMI, mkObs .CNDX, mkObs .CBU0] :=
  ⟨rfl, by rfl, by decide⟩

/-- Witness for C3 -/
theorem c3_witness :
    bestEffort c3Primary ≠ [] ∧ (bestEffort c3Primary).length < 4 ∧
    composite_get_all c3Primary c3Fallback false =
      (.ok (bestEffort c3Primary ++
        (missingEtfs (bestEffort c3Primary)).filterMap fun e => (c3Fallback e).toOption),
        missingEtfs (bestEffort c3Primary)) := by
  have hbe : bestEffort c3Primary = [mkObs .EIMI, mkObs .CNDX, mkObs .CBU0] := rfl
  refine ⟨by rw [hbe]; simp, by rw [hbe]; simp, ?_⟩
  exact (c3_composite_batch c3Primary c3Fallback false).2.1
    (by rw [hbe]; simp) (by rw [hbe]; simp) rfl

theorem pdate_lt_total (a b : PDate) :
    (¬ PDate.lt a b ∧ ¬ (b = a)) ↔ PDate.lt b a := by
  obtain ⟨ya, ma, da⟩ := a
  obtain ⟨yb, mb, db⟩ := b
  simp only [PDate.lt, PDate.mk.injEq]
  constructor
  · intro h
    rcases h with ⟨h1, h2⟩
    omega
  · intro h
    omega

theorem isoAfter_false_iff (e n : PyDateTime) :
    isoAfterSqlNow e n = false ↔ PDate.lt e.date n.date := by
  rw [isoAfterSqlNow, Bool.or_eq_false_iff]
  simp only [decide_eq_false_iff_not]
  exact pdate_lt_total n.date e.date

theorem pdate_lt_nextDay (d : PDate) : PDate.lt d d.nextDay := by
  rw [PDate.nextDay]
  split_ifs with h1 h2
  · simp [PDate.lt]
  · simp [PDate.lt]
  · simp [PDate.lt]

theorem find?_append_of_none {α : Type} (p : α → Bool) (l1 l2 : List α)
    (h : ∀ x ∈ l1, p x = false) :
    (l1 ++ l2).find? p = l2.find? p := by
  induction l1 with
  | nil => rfl
  | cons x xs ih =>
    rw [List.cons_append, List.find?_cons, h x (List.mem_cons_self _ _)]
    exact ih fun y hy => h y (List.mem_cons_of_mem _ hy)

/-- Claim C7 (amended) -/
theorem c7_cache_behaviour {α : Type} (st : CacheState α) (name : String)
    (payload : α) (now : PyDateTime) :
    cache_get (cache_set st name payload now) name now = some payload ∧
    (∀ now2 : PyDateTime,
      (∀ e ∈ st.rows, e.etf_name = name →
        PDate.lt e.expires_at.date now2.date) →
      cache_get st name now2 = none) ∧
    (∀ now2 : PyDateTime,
      (clear_expired st now2).1 =
        (st.rows.filter fun e => PDate.lt e.expires_at.date now2.date).length ∧
      (clear_expired st now2).2.rows =
        st.rows.filter fun e => ¬ PDate.lt e.expires_at.date now2.date) := by
  refine ⟨?_, ?_, ?_⟩
  · have hp : isoAfterSqlNow (addTtl24h now) now = true := by
      rw [isoAfterSqlNow, Bool.or_eq_true]
      left
      exact decide_eq_true (pdate_lt_nextDay now.date)
    have hstep :
        ((st.rows.filter fun e => e.etf_name ≠ name) ++
          [(⟨name, payload, now, addTtl24h now⟩ : CacheEntry α)]).find?
          (fun e => e.etf_name = name ∧ isoAfterSqlNow e.expires_at now) =
        some (⟨name, payload, now, addTtl24h now⟩ : CacheEntry α) := by
      rw [find?_append_of_none]
      · rw [List.find?_cons]
        simp [hp]
      · intro x hx
        rw [List.mem_filter] at hx
        simp only [decide_eq_true_eq] at hx
        simp [hx.2]
    simp only [cache_get, cache_set]
    rw [hstep]
    rfl
  · intro now2 hall
    rw [cache_get, List.find?_eq_none.mpr]
    · rfl
    · intro x hx hpx
      simp only [decide_eq_true_eq] at hpx
      have hfalse := (isoAfter_false_iff x.expires_at now2).mpr
        (hall x hx hpx.1)
      rw [hpx.2] at hfalse
      cases hfalse
  · intro now2
    have hdrop : ∀ x ∈ st.rows,
        (decide ¬ (isoAfterSqlNow x.expires_at now2 = true)) =
          decide (PDate.lt x.expires_at.date now2.date) := by
      intro x _
      cases hb : isoAfterSqlNow x.expires_at now2 with
      | false => simp [hb, (isoAfter_false_iff _ _).mp hb]
      | true =>
        have hnl : ¬ PDate.lt x.expires_at.date now2.date := by
          intro hl
          rw [(isoAfter_false_iff _ _).mpr hl] at hb
          cases hb
        simp [hb, hnl]
    have hkeep : ∀ x ∈ st.rows,
        isoAfterSqlNow x.expires_at now2 =
          decide ¬ (PDate.lt x.expires_at.date now2.date) := by
      intro x _
      cases hb : isoAfterSqlNow x.expires_at now2 with
      | false => simp [(isoAfter_false_iff _ _).mp hb]
      | true =>
        have hnl : ¬ PDate.lt x.expires_at.date now2.date := by
          intro hl
          rw [(isoAfter_false_iff _ _).mpr hl] at hb
          cases hb
        simp [hnl]
    constructor
    · rw [clear_expired]
      rw [List.filter_congr hdrop]
    · rw [clear_expired]
      rw [List.filter_congr hkeep]

/-- Counterexample for C7 -/
theorem c7_counterexample :
    cache_set (CacheState.mk ([] : List (CacheEntry String))) "EIMI"
        "payload" ⟨⟨2026,10,12⟩, 3600⟩ =
      ⟨[⟨"EIMI", "payload", ⟨⟨2026,10,12⟩,3600⟩, ⟨⟨2026,10,13⟩,3600⟩⟩]⟩ ∧
    PyDateTime.lt ⟨⟨2026,10,13⟩, 3600⟩ ⟨⟨2026,10,13⟩, 43200⟩ ∧
    cache_get (cache_set (CacheState.mk ([] : List (CacheEntry String)))
        "EIMI" "payload" ⟨⟨2026,10,12⟩, 3600⟩) "EIMI"
        ⟨⟨2026,10,13⟩, 43200⟩ = some "payload" ∧
    (clear_expired (cache_set (CacheState.mk ([] : List (CacheEntry String)))
        "EIMI" "payload" ⟨⟨2026,10,12⟩, 3600⟩) ⟨⟨2026,10,13⟩, 43200⟩).1 = 0 :=
  ⟨rfl, by decide, by rfl, by rfl⟩

/-- Witness for C7 -/
theorem c7_witness :
    (∀ e ∈ ([⟨"EIMI", "old", ⟨⟨2026,10,10⟩,0⟩, ⟨⟨2026,10,11⟩,0⟩⟩] :
        List (CacheEntry String)), e.etf_name = "EIMI" →
      PDate.lt e.expires_at.date (⟨2026,10,13⟩ : PDate)) ∧
    cache_get (CacheState.mk
        ([⟨"EIMI", "old", ⟨⟨2026,10,10⟩,0⟩, ⟨⟨2026,10,11⟩,0⟩⟩] :
          List (CacheEntry String))) "EIMI" ⟨⟨2026,10,13⟩, 0⟩ = none :=
  ⟨by decide,
    (c7_cache_behaviour (CacheState.mk
        ([⟨"EIMI", "old", ⟨⟨2026,10,10⟩,0⟩, ⟨⟨2026,10,11⟩,0⟩⟩] :
          List (CacheEntry String))) "EIMI" "old" ⟨⟨2026,10,10⟩,0⟩).2.1
      ⟨⟨2026,10,13⟩, 0⟩ (by decide)⟩

theorem etfOfName_pyName (e : ETF) : etfOfName e.pyName = .ok e := by
  cases e
  all_goals rfl

theorem parse_rankings_roundtrip (l : List (ETF × ℚ)) :
    parse_rankings (l.map fun p => (p.1.pyName, p.2)) = .ok l := by
  induction l with
  | nil => rfl
  | cons p rest ih =>
    obtain ⟨e, m⟩ := p
    simp only [List.map_cons, parse_rankings, etfOfName_pyName, ih]
    rfl

theorem except_bind_ok {e a b : Type} (x : a) (f : a → Except e b) :
    (Except.ok x : Except e a) >>= f = f x := rfl

theorem except_map_ok {e a b : Type} (g : a → b) (x : a) :
    Except.map g (Except.ok x : Except e a) = Except.ok (g x) := rfl

/-- Claim C10 -/
theorem c10_signal_roundtrip (s : Signal)
    (h4 : s.ranking.rankings.length = 4) :
    (signal_save s).bind row_to_signal = .ok { s with stooqLink := none } := by
  cases hr : s.ranking.rankings with
  | nil => rw [hr] at h4; simp at h4
  | cons p rest =>
    obtain ⟨w, m⟩ := p
    rw [signal_save.eq_def, hr]
    show row_to_signal _ = _
    have hparse := parse_rankings_roundtrip ((w, m) :: rest)
    simp only [List.map_cons] at hparse
    have h4b : ((w, m) :: rest).length = 4 := hr ▸ h4
    have hmk : mkMomentumRanking ((w, m) :: rest) s.ranking.periodStart
        s.ranking.periodEnd s.ranking.calculatedAt = .ok s.ranking := by
      rw [mkMomentumRanking, if_neg (by rw [h4b]; norm_num),
        if_neg (by rw [h4b]; exact not_not_intro rfl), ← hr]
    cases hprev : s.previousEtf with
    | none =>
      cases hb : s.requiresRebalance
      all_goals simp [row_to_signal, hparse, hmk, etfOfName_pyName,
        except_bind_ok, except_map_ok, hprev, hb, Signal.mk.injEq]
    | some p =>
      cases hb : s.requiresRebalance
      all_goals simp [row_to_signal, hparse, hmk, etfOfName_pyName,
        except_bind_ok, except_map_ok, hprev, hb, Signal.mk.injEq]

/-- Witness for C10 -/
theorem c10_witness :
    c10Signal.ranking.rankings.length = 4 ∧
    (signal_save c10Signal).bind row_to_signal =
      .ok { c10Signal with stooqLink := none } :=
  ⟨rfl, c10_signal_roundtrip c10Signal rfl⟩

/-- Claim C1 -/
theorem c1_run_migrations_crashes :
    run_migrations mkDatabase initSchema = .error (.attributeError "conn") ∧
    mkDatabase.conn = none ∧
    run_migrations ⟨some ()⟩ initSchema =
      .error (.operationalError "no such column: date") :=
  ⟨rfl, rfl, rfl⟩

/-- Claim C2 -/
theorem c2_execute_raises_attribute_error (s : Signal)
    (fetchOutcome : Except PyErr (List PriceData))
    (researchOutcome saveOutcome : Except PyErr Unit)
    (include_research save_to_db : Bool) :
    uc_execute (.ok s) fetchOutcome researchOutcome saveOutcome
        include_research save_to_db = .error (.attributeError "date") ∧
    ∀ e : PyErr, uc_execute (.error e) fetchOutcome researchOutcome
        saveOutcome include_research save_to_db = .error e :=
  ⟨rfl, fun _ => rfl⟩
